import Mathlib

/-!
# Verification of the faim-mcp validation / normalization / error engine

Shallow embedding of the request-validation, tensor-normalization and
error-classification modules of the faim-mcp server
(`src/utils/validation.ts`, `src/utils/errors.ts`, `src/tools/forecast.ts`),
together with proofs of the specified properties.

JavaScript runtime values are modelled by the inductive `JSVal`; JS numbers
by `JSNum` (NaN, the two infinities, or a finite value modelled as a
rational).  Fallible code returns `Option`/`Except`.  String rendering of
numbers inside diagnostic `details` strings approximates JS `ToString`
(it is never load-bearing for any property proved here).
-/

namespace Faim

/-- A JavaScript number: `NaN`, `±Infinity`, or a finite value (modelled as
a rational; the engine only ever compares and transports numbers, so exact
double rounding is irrelevant). -/
inductive JSNum where
  | nan
  | posInf
  | negInf
  | fin (q : ℚ)
deriving DecidableEq

/-- A JavaScript runtime value, as far as the validation engine can observe
one: `undefined`, `null`, booleans, numbers, strings, arrays and plain
objects (association lists of string keys). -/
inductive JSVal where
  | undefined
  | null
  | bool (b : Bool)
  | num (n : JSNum)
  | str (s : String)
  | arr (elems : List JSVal)
  | obj (fields : List (String × JSVal))

/-- JS `typeof` operator (note `typeof null === "object"`). -/
def typeOf : JSVal → String
  | .undefined => "undefined"
  | .null => "object"
  | .bool _ => "boolean"
  | .num _ => "number"
  | .str _ => "string"
  | .arr _ => "object"
  | .obj _ => "object"

/-- JS truthiness: `undefined`, `null`, `false`, `0`, `NaN` and `""` are
falsy, everything else is truthy. -/
def truthy : JSVal → Bool
  | .undefined => false
  | .null => false
  | .bool b => b
  | .num .nan => false
  | .num (.fin q) => decide (q ≠ 0)
  | .num _ => true
  | .str s => decide (s ≠ "")
  | .arr _ => true
  | .obj _ => true

/-- Property read `v[k]`: lookup on plain objects, `undefined` everywhere
else (named properties of arrays/primitives are not modelled — the engine
only reads named fields off the request object). -/
def getField : JSVal → String → JSVal
  | .obj fields, k =>
    match fields.lookup k with
    | some v => v
    | none => .undefined
  | _, _ => .undefined

/-- `Array.isArray`. -/
def isArr : JSVal → Bool
  | .arr _ => true
  | _ => false

/-- Index read `v[0]`: first element of an array, `undefined` otherwise
(also `undefined` for an empty array). -/
def idx0 : JSVal → JSVal
  | .arr (v :: _) => v
  | _ => .undefined

/-- `typeof v === 'number'`. -/
def isNumber : JSVal → Bool
  | .num _ => true
  | _ => false

/-- `typeof v === 'number' && Number.isFinite(v)`. -/
def isFiniteNumber : JSVal → Bool
  | .num (.fin _) => true
  | _ => false

/-- JS `ToString` of a number. Finite values are rendered via the rational's
printer — an approximation of double decimal rendering, used only inside
diagnostic `details` strings. -/
def JSNum.toStr : JSNum → String
  | .nan => "NaN"
  | .posInf => "Infinity"
  | .negInf => "-Infinity"
  | .fin q => toString q

mutual

/-- JS string conversion `String(v)` / template-literal interpolation.
Array rendering approximates `Array.prototype.toString` (elements joined by
commas; `null`/`undefined` elements are rendered by name here rather than as
empty strings). Used only for diagnostic `details` strings. -/
def jsToString : JSVal → String
  | .undefined => "undefined"
  | .null => "null"
  | .bool b => cond b "true" "false"
  | .num n => n.toStr
  | .str s => s
  | .arr elems => jsListToString elems
  | .obj _ => "[object Object]"

/-- Comma-joined rendering of an array's elements. -/
def jsListToString : List JSVal → String
  | [] => ""
  | [v] => jsToString v
  | v :: rest => jsToString v ++ "," ++ jsListToString rest

end

/-! ## Tensor normalizer (`src/utils/validation.ts`, `normalizeInput`) -/

/-- `Array.prototype.flat()` (depth 1): array elements are spliced in,
non-array elements are kept. -/
def jsFlat (xs : List JSVal) : List JSVal :=
  xs.flatMap fun v =>
    match v with
    | .arr ys => ys
    | v => [v]

/-- `normalizeInput(input, model = 'chronos2', isMultivariate = false)`
(validation.ts lines 391-440).  Normalizes 1D/2D input to the SDK's 3D
`[batch, sequence, features]` layout; throws (here: `Except.error`) on an
empty top-level array.

Branches, in source order:
* empty input: throw;
* `Array.isArray(input[0]) && Array.isArray(input[0][0])`: already 3D,
  returned as-is;
* `typeof input[0] === 'number'`: 1D, each scalar wrapped as a one-element
  feature vector, the whole wrapped in a batch axis;
* `Array.isArray(input[0])`: 2D — for Chronos2 with `isMultivariate`
  wrap in a batch axis only; otherwise flatten one level and apply the 1D
  rule;
* fallback (`shouldn't reach here`): wrap in a batch axis. -/
def normalizeInput (input : List JSVal) (model : String := "chronos2")
    (isMultivariate : Bool := false) : Except String (List JSVal) :=
  if input.length = 0 then
    .error "Time series data cannot be empty. Provide at least one value."
  else if isArr (idx0 (.arr input)) && isArr (idx0 (idx0 (.arr input))) then
    .ok input
  else if isNumber (idx0 (.arr input)) then
    .ok [.arr (input.map fun val => .arr [val])]
  else if isArr (idx0 (.arr input)) then
    if model = "chronos2" ∧ isMultivariate = true then
      .ok [.arr input]
    else
      .ok [.arr ((jsFlat input).map fun val => .arr [val])]
  else
    .ok [.arr input]

/-! ## Request validator (`src/utils/validation.ts`, `validateForecastRequest`)

The source is one straight-line function with early returns; it is embedded
here block-by-block as one stage function per request field, chained by
first-error-wins, which preserves the early-return control flow exactly. -/

/-- A field-addressable error response (`src/types.ts`, `ErrorResponse`). -/
structure ErrorResponse where
  error_code : String
  message : String
  field : Option String := none
  details : Option String := none
deriving DecidableEq

/-- Return type of the internal helper `validateArrayInput` (no `field`
member; the caller attaches `field: 'x'`). -/
structure ArrayInputError where
  error_code : String
  message : String
  details : Option String := none
deriving DecidableEq

/-- Rank-1 element scan (validation.ts lines 239-247): every element of `x`
must be a finite number.  The counter `i` is the loop index reported in the
message. -/
def checkNumberList : List JSVal → ℕ → Option ArrayInputError
  | [], _ => none
  | v :: rest, i =>
    if !isNumber v || !isFiniteNumber v then
      some ⟨"INVALID_PARAMETER", s!"x[{i}] must be a finite number",
            some s!"Got: {jsToString v}"⟩
    else
      checkNumberList rest (i + 1)

/-- Rank-2 row scan (validation.ts lines 275-283): every entry of row `i`
must be a finite number; `j` is the inner loop index. -/
def check2DRow : List JSVal → ℕ → ℕ → Option ArrayInputError
  | [], _, _ => none
  | v :: rest, i, j =>
    if !isNumber v || !isFiniteNumber v then
      some ⟨"INVALID_PARAMETER", s!"x[{i}][{j}] must be a finite number",
            some s!"Got: {jsToString v}"⟩
    else
      check2DRow rest i (j + 1)

/-- Rank-3 leaf scan (validation.ts lines 296-304): every leaf of
`x[i][j]` must be a finite number; `k` is the innermost loop index. -/
def check3DInner : List JSVal → ℕ → ℕ → ℕ → Option ArrayInputError
  | [], _, _, _ => none
  | v :: rest, i, j, k =>
    if !isNumber v || !isFiniteNumber v then
      some ⟨"INVALID_PARAMETER", s!"x[{i}][{j}][{k}] must be a finite number",
            some s!"Got: {jsToString v}"⟩
    else
      check3DInner rest i j (k + 1)

/-- Rank-3 inner-row scan (validation.ts lines 286-305): every `x[i][j]`
must itself be an array whose leaves are finite numbers. -/
def check3DRow : List JSVal → ℕ → ℕ → Option ArrayInputError
  | [], _, _ => none
  | v :: rest, i, j =>
    match v with
    | .arr inner =>
      match check3DInner inner i j 0 with
      | some e => some e
      | none => check3DRow rest i (j + 1)
    | v =>
      some ⟨"INVALID_PARAMETER", s!"x[{i}][{j}] must be an array",
            some s!"Got: {typeOf v}"⟩

/-- Outer row scan for rank-2/3 input (validation.ts lines 254-313): each
`x[i]` must be a non-empty array; its own first element decides, per row,
whether the row is checked as rank 2 or rank 3. -/
def checkRows : List JSVal → ℕ → Option ArrayInputError
  | [], _ => none
  | v :: rest, i =>
    match v with
    | .arr row =>
      if row.length = 0 then
        some ⟨"INVALID_VALUE_RANGE", s!"x[{i}] cannot be an empty array", none⟩
      else
        match idx0 (.arr row) with
        | .num _ =>
          match check2DRow row i 0 with
          | some e => some e
          | none => checkRows rest (i + 1)
        | .arr _ =>
          match check3DRow row i 0 with
          | some e => some e
          | none => checkRows rest (i + 1)
        | firstInRow =>
          some ⟨"INVALID_PARAMETER", s!"x[{i}][0] must be either a number or an array",
                some s!"Got: {typeOf firstInRow}"⟩
    | v =>
      some ⟨"INVALID_PARAMETER", s!"x[{i}] must be an array",
            some s!"Got: {typeOf v}"⟩

/-- `validateArrayInput(x)` (validation.ts lines 215-322): `x` must be a
non-empty array; its first element decides whether it is checked as rank 1
(all finite numbers) or rank 2/3 (row-by-row). -/
def validateArrayInput : JSVal → Option ArrayInputError
  | .arr [] =>
    some ⟨"INVALID_VALUE_RANGE", "Time series data array cannot be empty", none⟩
  | .arr (first :: rest) =>
    if isNumber first then
      checkNumberList (first :: rest) 0
    else if isArr first then
      checkRows (first :: rest) 0
    else
      some ⟨"INVALID_PARAMETER",
            "Time series data must be an array of numbers or nested arrays",
            some s!"First element is: {typeOf first}"⟩
  | x =>
    some ⟨"INVALID_PARAMETER", "Time series data must be an array",
          some s!"Got: {typeOf x}"⟩

/-- Root check (validation.ts lines 50-56):
`!request || typeof request !== 'object'`. -/
def validateRoot (request : JSVal) : Option ErrorResponse :=
  if ¬ truthy request ∨ typeOf request ≠ "object" then
    some ⟨"INVALID_REQUEST", "Request must be a valid object", some "root", none⟩
  else
    none

/-- `model` field check (validation.ts lines 61-70): optional; when present
it must be the string `"chronos2"` or `"tirex"`. -/
def validateModelField (request : JSVal) : Option ErrorResponse :=
  match getField request "model" with
  | .undefined => none
  | .null => none
  | m =>
    if (match m with
        | .str s => (["chronos2", "tirex"]).contains s
        | _ => false) then
      none
    else
      some ⟨"INVALID_PARAMETER", "Model must be either \"chronos2\" or \"tirex\"",
            some "model", some s!"Got: {jsToString m}"⟩

/-- `horizon` field check (validation.ts lines 73-107): required; must be a
finite number; must be `> 0` and `≤ 1024`. -/
def validateHorizonField (request : JSVal) : Option ErrorResponse :=
  match getField request "horizon" with
  | .undefined =>
    some ⟨"MISSING_REQUIRED_FIELD", "Missing required field: horizon",
          some "horizon", none⟩
  | .null =>
    some ⟨"MISSING_REQUIRED_FIELD", "Missing required field: horizon",
          some "horizon", none⟩
  | .num (.fin q) =>
    if q ≤ 0 then
      some ⟨"INVALID_VALUE_RANGE", "Horizon must be greater than 0",
            some "horizon", some s!"Got: {JSNum.toStr (.fin q)}"⟩
    else if q > 1024 then
      some ⟨"INVALID_VALUE_RANGE", "Horizon is too large. Maximum supported is 1024",
            some "horizon", some s!"Got: {JSNum.toStr (.fin q)}"⟩
    else
      none
  | h =>
    some ⟨"INVALID_PARAMETER", "Horizon must be a finite number",
          some "horizon", some s!"Got: {jsToString h}"⟩

/-- `x` field check (validation.ts lines 110-142): required (truthiness
check); a string value is first run through `JSON.parse` (abstracted as the
`jsonParse` argument, since it is a JS runtime built-in); the resulting
value goes through `validateArrayInput`, whose error is re-tagged with
`field: 'x'`. -/
def validateXField (jsonParse : String → Except String JSVal)
    (request : JSVal) : Option ErrorResponse :=
  if ¬ truthy (getField request "x") then
    some ⟨"MISSING_REQUIRED_FIELD", "Missing required field: x (time series data)",
          some "x", none⟩
  else
    match (match getField request "x" with
           | .str s => jsonParse s
           | v => .ok v) with
    | .error msg =>
      some ⟨"INVALID_PARAMETER",
            "x parameter must be an array. If passing as string, it must be valid JSON.",
            some "x", some s!"Failed to parse x: {msg}"⟩
    | .ok xData =>
      match validateArrayInput xData with
      | some e => some ⟨e.error_code, e.message, some "x", e.details⟩
      | none => none

/-- `output_type` field check (validation.ts lines 145-162): optional; when
present it must be the string `"point"` or `"quantiles"`. -/
def validateOutputTypeField (request : JSVal) : Option ErrorResponse :=
  match getField request "output_type" with
  | .undefined => none
  | .null => none
  | .str s =>
    if (["point", "quantiles"]).contains s then
      none
    else
      some ⟨"INVALID_PARAMETER", "output_type must be one of: point, quantiles",
            some "output_type", some s!"Got: {s}"⟩
  | _ =>
    some ⟨"INVALID_PARAMETER", "output_type must be a string",
          some "output_type", none⟩

/-- Quantile element loop (validation.ts lines 183-202), with `i` the loop
index reported in the message.  The source first rejects any element that
is not a finite number (`typeof q !== 'number' || !Number.isFinite(q)`),
then rejects a finite value outside `[0, 1]` — so the element is checked by
matching on whether it is a finite number. -/
def checkQuantiles : List JSVal → ℕ → Option ErrorResponse
  | [], _ => none
  | q :: rest, i =>
    match q with
    | .num (.fin r) =>
      if r < 0 ∨ r > 1 then
        some ⟨"INVALID_VALUE_RANGE", s!"quantiles[{i}] must be between 0 and 1",
              some "quantiles", some s!"Got: {JSNum.toStr (.fin r)}"⟩
      else
        checkQuantiles rest (i + 1)
    | q =>
      some ⟨"INVALID_PARAMETER", s!"quantiles[{i}] must be a finite number",
            some "quantiles", some s!"Got: {jsToString q}"⟩

/-- `quantiles` field check (validation.ts lines 165-203): optional; when
present it must be a non-empty array of finite numbers in `[0, 1]`, checked
in index order. -/
def validateQuantilesField (request : JSVal) : Option ErrorResponse :=
  match getField request "quantiles" with
  | .undefined => none
  | .null => none
  | .arr qs =>
    if qs.length = 0 then
      some ⟨"INVALID_VALUE_RANGE", "quantiles array must not be empty",
            some "quantiles", none⟩
    else
      checkQuantiles qs 0
  | _ =>
    some ⟨"INVALID_PARAMETER", "quantiles must be an array", some "quantiles", none⟩

/-- `validateForecastRequest(request)` (validation.ts lines 48-207): the
field checks in source order, first error wins, `none` means valid. -/
def validateForecastRequest (jsonParse : String → Except String JSVal)
    (request : JSVal) : Option ErrorResponse :=
  match validateRoot request with
  | some e => some e
  | none =>
  match validateModelField request with
  | some e => some e
  | none =>
  match validateHorizonField request with
  | some e => some e
  | none =>
  match validateXField jsonParse request with
  | some e => some e
  | none =>
  match validateOutputTypeField request with
  | some e => some e
  | none => validateQuantilesField request

/-! ## Shape inspector (`src/utils/validation.ts`, `getArrayShape`) -/

/-- The while-loop body of `getArrayShape`: push the length and descend into
the first element while the current value is a non-empty array. -/
def shapeOf : JSVal → List ℕ
  | .arr (x :: xs) => (xs.length + 1) :: shapeOf x
  | _ => []

/-- `getArrayShape(array)` (validation.ts lines 455-465). -/
def getArrayShape (array : List JSVal) : List ℕ :=
  shapeOf (.arr array)

/-! ## Error classifier (`src/utils/errors.ts`) -/

/-- A JavaScript `Error` instance (the classifier only reads `name` and
`message`, and tests `instanceof TypeError`). -/
structure JSError where
  name : String
  message : String
  isTypeError : Bool
deriving DecidableEq

/-- An arbitrary thrown value: either a plain JS value or an `Error`
instance (which `JSVal` cannot represent, and which the classifier
distinguishes via `instanceof Error`). -/
inductive ErrValue where
  | val (v : JSVal)
  | err (e : JSError)

/-- The optional `context` argument of `transformError`
(`{ operation?: string; field?: string }`). -/
structure ErrorContext where
  operation : Option String := none
  field : Option String := none
deriving DecidableEq

/-- `JSON.stringify` of an `ErrorContext` (members that are `undefined` are
omitted, in declaration order). -/
def stringifyContext (ctx : ErrorContext) : String :=
  match ctx.operation, ctx.field with
  | some o, some f => "\x7b\"operation\":\"" ++ o ++ "\",\"field\":\"" ++ f ++ "\"\x7d"
  | some o, none => "\x7b\"operation\":\"" ++ o ++ "\"\x7d"
  | none, some f => "\x7b\"field\":\"" ++ f ++ "\"\x7d"
  | none, none => "\x7b\x7d"

/-- `context?.field`. -/
def ctxField : Option ErrorContext → Option String
  | some c => c.field
  | none => none

/-- `isSDKError(error)` (errors.ts lines 215-228): a truthy object that is
not an `Error` instance and whose `error_code` member is a string. -/
def isSDKError : ErrValue → Bool
  | .err _ => false
  | .val v =>
    if ¬ truthy v ∨ typeOf v ≠ "object" then
      false
    else
      match getField v "error_code" with
      | .str _ => true
      | _ => false

/-- `sdkError.error_code || ''` (errors.ts lines 364 and 394). -/
def errorCodeOf : ErrValue → String
  | .val v =>
    match getField v "error_code" with
    | .str s => s
    | _ => ""
  | .err _ => ""

/-- `getSuggestionForErrorCode(code)` (errors.ts lines 274-289). -/
def getSuggestionForErrorCode (code : String) : Option String :=
  ([("INVALID_API_KEY", "Make sure your FAIM_API_KEY environment variable is set correctly."),
    ("AUTHENTICATION_FAILED", "Your API key is invalid or has expired. Please update it."),
    ("INSUFFICIENT_FUNDS", "Your account has insufficient funds. Please add credits."),
    ("RATE_LIMIT_EXCEEDED", "Too many requests. Please wait before trying again."),
    ("INVALID_SHAPE", "The time series data has incorrect dimensions. Check the array structure."),
    ("INVALID_PARAMETER", "One or more parameters is invalid. Check the error details."),
    ("TIMEOUT_ERROR", "The request took too long. Try with less data or a shorter horizon."),
    ("OUT_OF_MEMORY", "The request is too large for the model. Try smaller batches."),
    ("MODEL_NOT_FOUND", "The specified model is not available. Check the model name."),
    ("RESOURCE_EXHAUSTED", "The service is temporarily unavailable. Please try again later.")]
   : List (String × String)).lookup code

/-- `makeMessageFriendly(message, code)` (errors.ts lines 299-309). -/
def makeMessageFriendly (message : String) (code : String) : String :=
  match (([("INVALID_API_KEY", "Invalid API key provided"),
           ("AUTHENTICATION_REQUIRED", "Authentication required"),
           ("VALIDATION_ERROR", "Input validation failed"),
           ("TIMEOUT_ERROR", "Request timeout")]
          : List (String × String)).lookup code) with
  | some friendly => friendly
  | none => message

/-- `transformSDKError(error, context)` (errors.ts lines 106-139).  The
`message` member is read with `error.message || default`; a truthy
non-string `message` (possible at runtime, excluded by the declared
`FaimSDKError` interface) is rendered through `jsToString`.  The
`logError` call is a console side effect and has no bearing on the
returned value. -/
def transformSDKError (v : JSVal) (ctx : Option ErrorContext) : ErrorResponse :=
  let code :=
    match getField v "error_code" with
    | .str s => if s ≠ "" then s else "UNKNOWN_SDK_ERROR"
    | _ => "UNKNOWN_SDK_ERROR"
  let message :=
    let m := getField v "message"
    if truthy m then jsToString m else "An error occurred in the FAIM SDK"
  let detailItems :=
    (let d := getField v "detail"
     if truthy d then [s!"Details: {jsToString d}"] else [])
    ++ (match getSuggestionForErrorCode code with
        | some sug => [s!"Suggestion: {sug}"]
        | none => [])
    ++ (match ctx with
        | some c =>
          match c.operation with
          | some op => if op ≠ "" then [s!"Operation: {op}"] else []
          | none => []
        | none => [])
  { error_code := code
    message := makeMessageFriendly message code
    details := if detailItems.length > 0
               then some (String.intercalate " | " detailItems)
               else none
    field := ctxField ctx }

/-- ASCII `String.prototype.toLowerCase` (character-wise lowering). -/
def toLowerStr (s : String) : String :=
  String.mk (s.data.map Char.toLower)

/-- `haystack.includes(needle)` on strings. -/
def strIncludes (s pat : String) : Bool :=
  (List.range (s.length + 1)).any fun i => pat.data.isPrefixOf (s.data.drop i)

/-- `isNetworkError(message)` (errors.ts lines 235-248): case-insensitive
keyword search for connectivity failures. -/
def isNetworkError (message : String) : Bool :=
  (["ECONNREFUSED", "ECONNRESET", "EHOSTUNREACH", "ENETUNREACH",
    "getaddrinfo", "connect"]).any fun pattern =>
    strIncludes (toLowerStr message) (toLowerStr pattern)

/-- `isTimeoutError(message)` (errors.ts lines 255-265). -/
def isTimeoutError (message : String) : Bool :=
  (["timeout", "timed out", "deadline exceeded"]).any fun pattern =>
    strIncludes (toLowerStr message) (toLowerStr pattern)

/-- `transformJavaScriptError(error, context)` (errors.ts lines 152-205):
message-pattern classification of a generic runtime `Error` into
`NETWORK_ERROR` / `TIMEOUT_ERROR` / `INTERNAL_SERVER_ERROR` (TypeError) /
`INTERNAL_ERROR`.  `logError` calls are console-only and not modelled. -/
def transformJavaScriptError (e : JSError) (ctx : Option ErrorContext) : ErrorResponse :=
  let message := if e.message ≠ "" then e.message else "Unknown error"
  let detailParts :=
    [message]
    ++ (match ctx with
        | some c =>
          match c.operation with
          | some op => if op ≠ "" then [s!"Operation: {op}"] else []
          | none => []
        | none => [])
  let detailsString := String.intercalate " | " detailParts
  if isNetworkError message then
    { error_code := "NETWORK_ERROR"
      message := "Failed to connect to FAIM API. Please check your network connection."
      details := some detailsString
      field := ctxField ctx }
  else if isTimeoutError message then
    { error_code := "TIMEOUT_ERROR"
      message := "Request to FAIM API timed out. Try a smaller forecast or longer timeout."
      details := some detailsString
      field := ctxField ctx }
  else if e.isTypeError then
    { error_code := "INTERNAL_SERVER_ERROR"
      message := "An internal error occurred (type error). Please contact support."
      details := some detailsString
      field := ctxField ctx }
  else
    { error_code := "INTERNAL_ERROR"
      message := "An unexpected error occurred"
      details := some s!"{e.name}: {detailsString}"
      field := ctxField ctx }

/-- `transformError(error, context)` (errors.ts lines 62-91): SDK errors,
then `Error` instances, then plain strings, then the unknown-value
fallback.  (`ErrValue.val` is never an `Error` instance and `ErrValue.err`
always is, so the `instanceof` dispatch is the constructor split.) -/
def transformError (error : ErrValue) (ctx : Option ErrorContext := none) : ErrorResponse :=
  if isSDKError error then
    match error with
    | .val v => transformSDKError v ctx
    | .err e => transformJavaScriptError e ctx
  else
    match error with
    | .err e => transformJavaScriptError e ctx
    | .val (.str s) =>
      { error_code := "UNKNOWN_ERROR"
        message := s
        details := match ctx with
                   | some c => some s!"Context: {stringifyContext c}"
                   | none => none }
    | .val v =>
      { error_code := "UNKNOWN_ERROR"
        message := "An unexpected error occurred"
        details := some s!"Error type: {typeOf v}, {jsToString v}" }

/-- The fixed transient-failure codes of `isRetryableError`
(errors.ts lines 367-374). -/
def retryableCodes : List String :=
  ["TIMEOUT_ERROR", "OUT_OF_MEMORY", "RESOURCE_EXHAUSTED",
   "TRITON_CONNECTION_ERROR", "BILLING_TRANSACTION_FAILED", "DATABASE_ERROR"]

/-- The fixed authentication/authorization codes of `isAuthError`
(errors.ts lines 396-401). -/
def authCodes : List String :=
  ["AUTHENTICATION_REQUIRED", "AUTHENTICATION_FAILED",
   "INVALID_API_KEY", "AUTHORIZATION_FAILED"]

/-- `isRetryableError(error)` (errors.ts lines 358-377). -/
def isRetryableError (error : ErrValue) : Bool :=
  if ¬ isSDKError error then
    false
  else
    retryableCodes.contains (errorCodeOf error)

/-- `isAuthError(error)` (errors.ts lines 388-404). -/
def isAuthError (error : ErrValue) : Bool :=
  if ¬ isSDKError error then
    false
  else
    authCodes.contains (errorCodeOf error)

/-! ## Forecast tool data path (`src/tools/forecast.ts`) -/

/-- The typed forecast request (`src/types.ts`, `ForecastRequest`), as the
tool receives it after Zod validation; `is_multivariate` is the optional
flag for treating 2D input as multivariate. -/
structure ForecastRequest where
  model : String
  x : List JSVal
  horizon : ℚ
  output_type : Option String := none
  quantiles : Option (List ℚ) := none
  is_multivariate : Option Bool := none

/-- The tensor the forecast tool hands to the downstream SDK call
(forecast.ts lines 53-56): `normalizeInput(xData)` is invoked with only the
`x` argument, so `model` and `isMultivariate` take the defaults declared at
validation.ts lines 391-395 (`'chronos2'`, `false`); the request's
`is_multivariate` member is never read anywhere in `forecast`.  (The
JSON-string affordance for `x` at forecast.ts lines 44-51 is upstream of
this call and not part of the array data path modelled here.) -/
def forecastSendTensor (request : ForecastRequest) : Except String (List JSVal) :=
  normalizeInput request.x

/-! ## Helper constructions and computation lemmas -/

/-- A rank-2 numeric array `[r, c]` as the JS value `rows` (a list of rows
of finite numbers). -/
def ofRank2 (rows : List (List ℚ)) : List JSVal :=
  rows.map fun row => .arr (row.map fun q => .num (.fin q))

/-- A trivial stand-in for `JSON.parse`, used where the string affordance
of the `x` field is irrelevant (all inputs under study are real arrays). -/
def noParse : String → Except String JSVal := fun _ => .error "no parser"

theorem jsFlat_ofRank2 (rows : List (List ℚ)) :
    jsFlat (ofRank2 rows) = rows.flatten.map fun q => .num (.fin q) := by
  induction rows with
  | nil => rfl
  | cons r rs ih =>
    simp [ofRank2, jsFlat, List.flatMap_cons] at ih ⊢
    simpa [jsFlat, ofRank2] using ih

theorem flatten_length_const (rows : List (List ℚ)) (c : ℕ)
    (hlen : ∀ row ∈ rows, row.length = c) :
    rows.flatten.length = rows.length * c := by
  induction rows with
  | nil => simp
  | cons r rs ih =>
    have hr : r.length = c := hlen r (by simp)
    have hrest : ∀ row ∈ rs, row.length = c := fun row hrow => hlen row (by simp [hrow])
    simp [List.flatten_cons, hr, ih hrest, Nat.succ_mul, Nat.add_comm]

/-- The 2D flattening branch of `normalizeInput`, for an input whose first
element is an array that does not itself start with an array. -/
theorem normalizeInput_2D_branch (a rest : List JSVal) (model : String) (mv : Bool)
    (ha : isArr (idx0 (.arr a)) = false)
    (hcase : ¬(model = "chronos2" ∧ mv = true)) :
    normalizeInput (.arr a :: rest) model mv =
      .ok [.arr ((jsFlat (.arr a :: rest)).map fun val => .arr [val])] := by
  have h0 : idx0 (JSVal.arr (JSVal.arr a :: rest)) = JSVal.arr a := rfl
  have h1 : isArr (JSVal.arr a) = true := rfl
  have h2 : isNumber (JSVal.arr a) = false := rfl
  simp [normalizeInput, h0, h1, h2, ha, hcase]

/-- Core computation: on rank-2 input, any model/flag combination other
than (`chronos2`, `true`) takes the row-major flattening branch. -/
theorem normalizeInput_rank2_flatten_eq (rows : List (List ℚ)) (model : String)
    (mv : Bool) (hne : rows ≠ [])
    (hcase : ¬(model = "chronos2" ∧ mv = true)) :
    normalizeInput (ofRank2 rows) model mv =
      .ok [.arr (rows.flatten.map fun q => .arr [.num (.fin q)])] := by
  match rows, hne with
  | r :: rs, _ =>
    have ha : isArr (idx0 (.arr (r.map fun q => JSVal.num (.fin q)))) = false := by
      cases r <;> simp [idx0, isArr]
    have hcons : ofRank2 (r :: rs) =
        .arr (r.map fun q => JSVal.num (.fin q)) :: ofRank2 rs := rfl
    rw [hcons, normalizeInput_2D_branch _ _ _ _ ha hcase, ← hcons,
        jsFlat_ofRank2]
    simp [List.map_map, Function.comp_def]

/-- Core computation: on rank-2 input, (`chronos2`, `true`) wraps the input
in a single batch axis unchanged. -/
theorem normalizeInput_rank2_multivariate_eq (rows : List (List ℚ))
    (hne : rows ≠ []) :
    normalizeInput (ofRank2 rows) "chronos2" true = .ok [.arr (ofRank2 rows)] := by
  match rows, hne with
  | r :: rs, _ =>
    cases r with
    | nil => simp [normalizeInput, ofRank2, idx0, isArr, isNumber]
    | cons q qs => simp [normalizeInput, ofRank2, idx0, isArr, isNumber]

theorem getArrayShape_batch_of_rank2 (rows : List (List ℚ)) (c : ℕ)
    (hne : rows ≠ []) (hlen : ∀ row ∈ rows, row.length = c) (hc : 0 < c) :
    getArrayShape [.arr (ofRank2 rows)] = [1, rows.length, c] := by
  match rows, hne with
  | r :: rs, _ =>
    have hr : r.length = c := hlen r (by simp)
    match r, hc, hr with
    | q :: qs, _, hr =>
      simp [getArrayShape, ofRank2, shapeOf]
      simpa using hr

theorem getArrayShape_flat_tensor (xs : List ℚ) (hne : xs ≠ []) :
    getArrayShape [.arr (xs.map fun q => .arr [.num (.fin q)])] = [1, xs.length, 1] := by
  match xs, hne with
  | q :: qs, _ => simp [getArrayShape, shapeOf]

/-! ## Claims -/

/-- **C1.** For every rank-2 input of shape `[r, c]` (each row non-empty of
`c` finite numbers), `normalizeInput(x, 'chronos2', true)` wraps the input
in a single batch axis — the output is literally `[x]`, of shape
`[1, r, c]`, with no reshaping or reordering of the values. -/
theorem normalizeInput_rank2_chronos2_multivariate (rows : List (List ℚ)) (c : ℕ)
    (hne : rows ≠ []) (hlen : ∀ row ∈ rows, row.length = c) (hc : 0 < c) :
    normalizeInput (ofRank2 rows) "chronos2" true = .ok [.arr (ofRank2 rows)] ∧
    getArrayShape [.arr (ofRank2 rows)] = [1, rows.length, c] :=
  ⟨normalizeInput_rank2_multivariate_eq rows hne,
   getArrayShape_batch_of_rank2 rows c hne hlen hc⟩

/-- Witness for C1 at `x = [[1, 2], [3, 4], [5, 6]]` (shape `[3, 2]`). -/
theorem normalizeInput_rank2_chronos2_multivariate_witness :
    normalizeInput (ofRank2 [[1, 2], [3, 4], [5, 6]]) "chronos2" true =
      .ok [.arr (ofRank2 [[1, 2], [3, 4], [5, 6]])] ∧
    getArrayShape [.arr (ofRank2 [[1, 2], [3, 4], [5, 6]])] = [1, 3, 2] :=
  normalizeInput_rank2_chronos2_multivariate [[1, 2], [3, 4], [5, 6]] 2
    (by decide) (by decide) (by decide)

/-- **C2.** For every rank-2 input of shape `[r, c]` with the multivariate
flag false — or with any model other than `chronos2`, regardless of the
flag — `normalizeInput` flattens the input row-major into a single sequence
of shape `[1, r*c, 1]`. -/
theorem normalizeInput_rank2_flattens (rows : List (List ℚ)) (c : ℕ)
    (model : String) (mv : Bool)
    (hne : rows ≠ []) (hlen : ∀ row ∈ rows, row.length = c) (hc : 0 < c)
    (hcase : mv = false ∨ model ≠ "chronos2") :
    normalizeInput (ofRank2 rows) model mv =
      .ok [.arr (rows.flatten.map fun q => .arr [.num (.fin q)])] ∧
    getArrayShape [.arr (rows.flatten.map fun q => .arr [.num (.fin q)])] =
      [1, rows.length * c, 1] := by
  have hcase' : ¬(model = "chronos2" ∧ mv = true) := by
    rcases hcase with h | h
    · rintro ⟨-, hmv⟩; rw [h] at hmv; exact Bool.false_ne_true hmv
    · rintro ⟨hm, -⟩; exact h hm
  have hfne : rows.flatten ≠ [] := by
    match rows, hne with
    | r :: rs, _ =>
      have hr : r.length = c := hlen r (by simp)
      match r, hc, hr with
      | q :: qs, _, _ => simp
  refine ⟨normalizeInput_rank2_flatten_eq rows model mv hne hcase', ?_⟩
  rw [getArrayShape_flat_tensor rows.flatten hfne,
      flatten_length_const rows c hlen]

/-- Witness for C2 at the spec's example `[[1, 2], [3, 4]]`, which flattens
to `[[[1], [2], [3], [4]]]`. -/
theorem normalizeInput_rank2_flattens_witness :
    normalizeInput (ofRank2 [[1, 2], [3, 4]]) "chronos2" false =
      .ok [.arr [.arr [.num (.fin 1)], .arr [.num (.fin 2)],
                 .arr [.num (.fin 3)], .arr [.num (.fin 4)]]] ∧
    getArrayShape [.arr [.arr [.num (.fin 1)], .arr [.num (.fin 2)],
                         .arr [.num (.fin 3)], .arr [.num (.fin 4)]]] = [1, 4, 1] := by
  have h := normalizeInput_rank2_flattens [[1, 2], [3, 4]] 2 "chronos2" false
    (by decide) (by decide) (by decide) (Or.inl rfl)
  simpa using h

/-- The 1D branch of `normalizeInput`: a leading number selects the
scalar-wrapping rule. -/
theorem normalizeInput_1D_branch (n : JSNum) (rest : List JSVal)
    (model : String) (mv : Bool) :
    normalizeInput (.num n :: rest) model mv =
      .ok [.arr ((JSVal.num n :: rest).map fun val => .arr [val])] := by
  simp [normalizeInput, idx0, isArr, isNumber]

/-- The rank-3 pass-through branch of `normalizeInput`: a first element that
is an array starting with an array is returned unchanged, for every model
and flag. -/
theorem normalizeInput_rank3_branch (inner rest tail : List JSVal)
    (model : String) (mv : Bool) :
    normalizeInput (.arr (.arr inner :: rest) :: tail) model mv =
      .ok (.arr (.arr inner :: rest) :: tail) := by
  simp [normalizeInput, idx0, isArr]

/-- The 2D multivariate branch of `normalizeInput`: under (`chronos2`,
`true`) a rank-2 input is wrapped in a batch axis only. -/
theorem normalizeInput_mv_branch (a rest : List JSVal)
    (ha : isArr (idx0 (.arr a)) = false) :
    normalizeInput (.arr a :: rest) "chronos2" true = .ok [.arr (.arr a :: rest)] := by
  have h0 : idx0 (JSVal.arr (JSVal.arr a :: rest)) = JSVal.arr a := rfl
  have h1 : isArr (JSVal.arr a) = true := rfl
  have h2 : isNumber (JSVal.arr a) = false := rfl
  simp [normalizeInput, h0, h1, h2, ha]

theorem exists_of_isArr_idx0 (as : List JSVal) (h : isArr (idx0 (.arr as)) = true) :
    ∃ i as', as = JSVal.arr i :: as' := by
  match as with
  | [] => simp [idx0, isArr] at h
  | .arr i :: as' => exact ⟨i, as', rfl⟩
  | .undefined :: as' => simp [idx0, isArr] at h
  | .null :: as' => simp [idx0, isArr] at h
  | .bool _ :: as' => simp [idx0, isArr] at h
  | .num _ :: as' => simp [idx0, isArr] at h
  | .str _ :: as' => simp [idx0, isArr] at h
  | .obj _ :: as' => simp [idx0, isArr] at h

/-- Idempotence workhorse: every output `normalizeInput` produces from a
validated input is a fixed point of `normalizeInput`, for any later choice
of model and flag. -/
theorem normalizeInput_output_fixed (xs : List JSVal) (m m' : String) (f f' : Bool)
    (y : List JSVal) (hval : validateArrayInput (.arr xs) = none)
    (hnorm : normalizeInput xs m f = .ok y) :
    normalizeInput y m' f' = .ok y := by
  match xs, hval with
  | [], hval => simp [validateArrayInput] at hval
  | x0 :: xt, hval =>
    cases x0 with
    | num n =>
      rw [normalizeInput_1D_branch n xt m f] at hnorm
      have hy := Except.ok.inj hnorm
      subst hy
      rw [List.map_cons]
      exact normalizeInput_rank3_branch [.num n] (xt.map fun val => .arr [val]) [] m' f'
    | arr as =>
      by_cases h3 : isArr (idx0 (.arr as)) = true
      · obtain ⟨i, as', rfl⟩ := exists_of_isArr_idx0 as h3
        rw [normalizeInput_rank3_branch i as' xt m f] at hnorm
        have hy := Except.ok.inj hnorm
        subst hy
        exact normalizeInput_rank3_branch i as' xt m' f'
      · have ha : isArr (idx0 (.arr as)) = false := by
          simpa using h3
        have hasne : as ≠ [] := by
          intro h
          subst h
          simp [validateArrayInput, isNumber, isArr, checkRows] at hval
        by_cases hmv : m = "chronos2" ∧ f = true
        · obtain ⟨rfl, rfl⟩ := hmv
          rw [normalizeInput_mv_branch as xt ha] at hnorm
          have hy := Except.ok.inj hnorm
          subst hy
          exact normalizeInput_rank3_branch as xt [] m' f'
        · rw [normalizeInput_2D_branch as xt m f ha hmv] at hnorm
          have hy := Except.ok.inj hnorm
          subst hy
          match as, hasne with
          | a :: as'', _ =>
            have hflat : jsFlat (JSVal.arr (a :: as'') :: xt) =
                a :: (as'' ++ jsFlat xt) := by
              simp [jsFlat]
            rw [hflat, List.map_cons]
            exact normalizeInput_rank3_branch [a]
              ((as'' ++ jsFlat xt).map fun val => JSVal.arr [val]) [] m' f'
    | undefined => simp [validateArrayInput, isNumber, isArr] at hval
    | null => simp [validateArrayInput, isNumber, isArr] at hval
    | bool b => simp [validateArrayInput, isNumber, isArr] at hval
    | str s => simp [validateArrayInput, isNumber, isArr] at hval
    | obj fs => simp [validateArrayInput, isNumber, isArr] at hval

/-- **C4.** Rank-3 inputs (non-empty, first element an array whose first
element is an array) pass through `normalizeInput` unchanged for every
model and flag; and for every input accepted by `validateArrayInput`,
`normalizeInput` applied to its own output is a no-op (round-trip
stability). -/
theorem normalizeInput_rank3_id_and_idempotent :
    (∀ (inner rest tail : List JSVal) (model : String) (mv : Bool),
       normalizeInput (.arr (.arr inner :: rest) :: tail) model mv =
         .ok (.arr (.arr inner :: rest) :: tail)) ∧
    (∀ (xs : List JSVal) (m m' : String) (f f' : Bool) (y : List JSVal),
       validateArrayInput (.arr xs) = none →
       normalizeInput xs m f = .ok y →
       normalizeInput y m' f' = .ok y) :=
  ⟨fun inner rest tail model mv => normalizeInput_rank3_branch inner rest tail model mv,
   fun xs m m' f f' y hval hnorm => normalizeInput_output_fixed xs m m' f f' y hval hnorm⟩

/-- Witness for C4: the 3D input `[[[7]]]` is returned unchanged under
(`tirex`, `true`), and the rank-2 output of `normalizeInput` on
`[[1, 2], [3, 4]]` under (`chronos2`, `false`) is a fixed point under
(`tirex`, `true`). -/
theorem normalizeInput_rank3_id_and_idempotent_witness :
    normalizeInput [.arr [.arr [.num (.fin 7)]]] "tirex" true =
      .ok [.arr [.arr [.num (.fin 7)]]] ∧
    normalizeInput [.arr [.arr [.num (.fin 1)], .arr [.num (.fin 2)],
                          .arr [.num (.fin 3)], .arr [.num (.fin 4)]]] "tirex" true =
      .ok [.arr [.arr [.num (.fin 1)], .arr [.num (.fin 2)],
                 .arr [.num (.fin 3)], .arr [.num (.fin 4)]]] :=
  ⟨normalizeInput_rank3_id_and_idempotent.1 [.num (.fin 7)] [] [] "tirex" true,
   normalizeInput_rank3_id_and_idempotent.2
     [.arr [.num (.fin 1), .num (.fin 2)], .arr [.num (.fin 3), .num (.fin 4)]]
     "chronos2" "tirex" false true
     [.arr [.arr [.num (.fin 1)], .arr [.num (.fin 2)],
            .arr [.num (.fin 3)], .arr [.num (.fin 4)]]]
     rfl rfl⟩

/-- **C3.** The forecast tool invokes `normalizeInput` with only the `x`
argument, so `model`/`isMultivariate` stay at their defaults
(`'chronos2'`, `false`): for every request whose `x` has rank 2 and shape
`[r, c]`, the tensor sent downstream is the flattened `[1, r*c, 1]` form —
even when the request sets `is_multivariate` to `true` — so the
multivariate interpretation of rank-2 input is unreachable through the
tool interface. -/
theorem forecastSendTensor_ignores_multivariate (request : ForecastRequest)
    (rows : List (List ℚ)) (c : ℕ)
    (hx : request.x = ofRank2 rows)
    (_hmv : request.is_multivariate = some true)
    (hne : rows ≠ []) (hlen : ∀ row ∈ rows, row.length = c) (hc : 0 < c) :
    forecastSendTensor request = normalizeInput request.x "chronos2" false ∧
    forecastSendTensor request =
      .ok [.arr (rows.flatten.map fun q => .arr [.num (.fin q)])] ∧
    getArrayShape [.arr (rows.flatten.map fun q => .arr [.num (.fin q)])] =
      [1, rows.length * c, 1] := by
  have hcase : ¬("chronos2" = "chronos2" ∧ false = true) := by simp
  have hfne : rows.flatten ≠ [] := by
    match rows, hne with
    | r :: rs, _ =>
      have hr : r.length = c := hlen r (by simp)
      match r, hc, hr with
      | q :: qs, _, _ => simp
  refine ⟨rfl, ?_, ?_⟩
  · rw [forecastSendTensor, hx]
    exact normalizeInput_rank2_flatten_eq rows "chronos2" false hne hcase
  · rw [getArrayShape_flat_tensor rows.flatten hfne,
        flatten_length_const rows c hlen]

/-- Witness for C3: a request with `x = [[1, 2], [3, 4]]` and
`is_multivariate = true` still yields the flattened `[1, 4, 1]` tensor. -/
theorem forecastSendTensor_ignores_multivariate_witness :
    forecastSendTensor ⟨"chronos2", ofRank2 [[1, 2], [3, 4]], 3, none, none, some true⟩ =
      .ok [.arr [.arr [.num (.fin 1)], .arr [.num (.fin 2)],
                 .arr [.num (.fin 3)], .arr [.num (.fin 4)]]] := by
  have h := forecastSendTensor_ignores_multivariate
    ⟨"chronos2", ofRank2 [[1, 2], [3, 4]], 3, none, none, some true⟩
    [[1, 2], [3, 4]] 2 rfl rfl (by decide) (by decide) (by decide)
  simpa using h.2.1

theorem check2DRow_of_numbers (row : List ℚ) (i j : ℕ) :
    check2DRow (row.map fun q => JSVal.num (.fin q)) i j = none := by
  induction row generalizing j with
  | nil => rfl
  | cons q qs ih => simp [check2DRow, isNumber, isFiniteNumber, ih]

theorem checkRows_ofRank2 (rows : List (List ℚ)) (i : ℕ)
    (hrows : ∀ row ∈ rows, row ≠ []) :
    checkRows (ofRank2 rows) i = none := by
  induction rows generalizing i with
  | nil => rfl
  | cons r rs ih =>
    have hr : r ≠ [] := hrows r (by simp)
    have hrest : ∀ row ∈ rs, row ≠ [] := fun row hrow => hrows row (by simp [hrow])
    match r, hr with
    | q :: qs, _ =>
      have h2d : check2DRow (JSVal.num (JSNum.fin q) ::
          (qs.map fun q => JSVal.num (JSNum.fin q))) i 0 = none := by
        simpa using check2DRow_of_numbers (q :: qs) i 0
      have hcons : ofRank2 ((q :: qs) :: rs) =
          .arr (JSVal.num (JSNum.fin q) ::
            (qs.map fun q => JSVal.num (JSNum.fin q))) :: ofRank2 rs := rfl
      rw [hcons]
      simp only [checkRows, idx0, h2d, List.length_cons]
      simp only [Nat.succ_ne_zero, if_false]
      exact ih (i + 1) hrest

/-- Every non-empty rank-2 array whose rows are all non-empty lists of
finite numbers passes `validateArrayInput` — row lengths are never
compared. -/
theorem validateArrayInput_ofRank2 (rows : List (List ℚ)) (hne : rows ≠ [])
    (hrows : ∀ row ∈ rows, row ≠ []) :
    validateArrayInput (.arr (ofRank2 rows)) = none := by
  match rows, hne with
  | r :: rs, _ =>
    have hcons : ofRank2 (r :: rs) =
        .arr (r.map fun q => JSVal.num (.fin q)) :: ofRank2 rs := rfl
    rw [hcons]
    simp only [validateArrayInput, isNumber, isArr, Bool.false_eq_true,
               if_false, if_true]
    rw [← hcons]
    exact checkRows_ofRank2 (r :: rs) 0 hrows

/-- The concrete ragged request of C5: `x = [[1, 2, 3], [4, 5]]` with two
rows of unequal length. -/
def raggedRequest : JSVal :=
  .obj [("model", .str "chronos2"),
        ("x", .arr [.arr [.num (.fin 1), .num (.fin 2), .num (.fin 3)],
                    .arr [.num (.fin 4), .num (.fin 5)]]),
        ("horizon", .num (.fin 2))]

/-- **C5 counterexample.** The claim says a ragged `x` is rejected with an
error on field `x`; in fact `validateForecastRequest` returns `none`
(valid) on the ragged request `{model: "chronos2",
x: [[1, 2, 3], [4, 5]], horizon: 2}` — no row-length comparison exists in
`validateArrayInput`. -/
theorem validateForecastRequest_ragged_counterexample :
    validateForecastRequest noParse raggedRequest = none := by rfl

/-- **C5 (amended).** A ragged nested array — every row a non-empty array
of finite numbers, two rows of unequal length — passes validation: the
validator checks each row independently (array, non-empty, finite numeric
entries) and never compares row lengths, so `validateForecastRequest`
returns valid. -/
theorem validateForecastRequest_ragged_accepted (rows : List (List ℚ))
    (i j : ℕ) (_hi : i < rows.length) (_hj : j < rows.length)
    (_hragged : (rows.getD i []).length ≠ (rows.getD j []).length)
    (hne : rows ≠ []) (hrows : ∀ row ∈ rows, row ≠ []) :
    validateForecastRequest noParse
      (.obj [("model", .str "chronos2"), ("x", .arr (ofRank2 rows)),
             ("horizon", .num (.fin 2))]) = none := by
  have hval := validateArrayInput_ofRank2 rows hne hrows
  have h1 : validateRoot (.obj [("model", JSVal.str "chronos2"),
      ("x", JSVal.arr (ofRank2 rows)), ("horizon", JSVal.num (.fin 2))]) = none := rfl
  have h2 : validateModelField (.obj [("model", JSVal.str "chronos2"),
      ("x", JSVal.arr (ofRank2 rows)), ("horizon", JSVal.num (.fin 2))]) = none := rfl
  have h3 : validateHorizonField (.obj [("model", JSVal.str "chronos2"),
      ("x", JSVal.arr (ofRank2 rows)), ("horizon", JSVal.num (.fin 2))]) = none := rfl
  have hx : validateXField noParse (.obj [("model", JSVal.str "chronos2"),
      ("x", JSVal.arr (ofRank2 rows)), ("horizon", JSVal.num (.fin 2))]) =
      (match validateArrayInput (.arr (ofRank2 rows)) with
       | some e => some ⟨e.error_code, e.message, some "x", e.details⟩
       | none => none) := rfl
  have h5 : validateOutputTypeField (.obj [("model", JSVal.str "chronos2"),
      ("x", JSVal.arr (ofRank2 rows)), ("horizon", JSVal.num (.fin 2))]) = none := rfl
  have h6 : validateQuantilesField (.obj [("model", JSVal.str "chronos2"),
      ("x", JSVal.arr (ofRank2 rows)), ("horizon", JSVal.num (.fin 2))]) = none := rfl
  simp only [validateForecastRequest, h1, h2, h3, hx, hval, h5, h6]

/-- Witness for the amended C5 at the ragged input `[[1, 2, 3], [4, 5]]`
(row lengths 3 and 2). -/
theorem validateForecastRequest_ragged_accepted_witness :
    validateForecastRequest noParse
      (.obj [("model", .str "chronos2"), ("x", .arr (ofRank2 [[1, 2, 3], [4, 5]])),
             ("horizon", .num (.fin 2))]) = none :=
  validateForecastRequest_ragged_accepted [[1, 2, 3], [4, 5]] 0 1
    (by decide) (by decide) (by decide) (by decide) (by decide)

/-! ### Which field each validation stage blames -/

theorem validateXField_field (p : String → Except String JSVal) (req : JSVal)
    (e : ErrorResponse) (h : validateXField p req = some e) : e.field = some "x" := by
  unfold validateXField at h
  split at h
  · cases Option.some.inj h; rfl
  · split at h
    · cases Option.some.inj h; rfl
    · split at h
      · cases Option.some.inj h; rfl
      · simp at h

theorem validateOutputTypeField_field (req : JSVal) (e : ErrorResponse)
    (h : validateOutputTypeField req = some e) : e.field = some "output_type" := by
  unfold validateOutputTypeField at h
  split at h
  · simp at h
  · simp at h
  · split at h
    · simp at h
    · cases Option.some.inj h; rfl
  · cases Option.some.inj h; rfl

theorem checkQuantiles_field (qs : List JSVal) (i : ℕ) (e : ErrorResponse)
    (h : checkQuantiles qs i = some e) : e.field = some "quantiles" := by
  induction qs generalizing i with
  | nil => simp [checkQuantiles] at h
  | cons q rest ih =>
    unfold checkQuantiles at h
    split at h
    · split at h
      · cases Option.some.inj h; rfl
      · exact ih _ h
    · cases Option.some.inj h; rfl

theorem validateQuantilesField_field (req : JSVal) (e : ErrorResponse)
    (h : validateQuantilesField req = some e) : e.field = some "quantiles" := by
  unfold validateQuantilesField at h
  split at h
  · simp at h
  · simp at h
  · split at h
    · cases Option.some.inj h; rfl
    · exact checkQuantiles_field _ _ _ h
  · cases Option.some.inj h; rfl

/-- Computation of the horizon stage on a finite numeric horizon. -/
theorem validateHorizonField_fin (req : JSVal) (h : ℚ)
    (hhor : getField req "horizon" = .num (.fin h)) :
    validateHorizonField req =
      if h ≤ 0 then
        some ⟨"INVALID_VALUE_RANGE", "Horizon must be greater than 0",
              some "horizon", some s!"Got: {JSNum.toStr (.fin h)}"⟩
      else if h > 1024 then
        some ⟨"INVALID_VALUE_RANGE", "Horizon is too large. Maximum supported is 1024",
              some "horizon", some s!"Got: {JSNum.toStr (.fin h)}"⟩
      else none := by
  unfold validateHorizonField
  rw [hhor]

/-- **C6.** For a request that passes the root and model checks and whose
`horizon` is a finite number `h`, `validateForecastRequest` reports
`INVALID_VALUE_RANGE` on field `horizon` exactly when `h ≤ 0` or
`h > 1024` (the configured maximum). -/
theorem validateForecastRequest_horizon_range (p : String → Except String JSVal)
    (req : JSVal) (h : ℚ)
    (hroot : validateRoot req = none)
    (hmodel : validateModelField req = none)
    (hhor : getField req "horizon" = .num (.fin h)) :
    (∃ e, validateForecastRequest p req = some e ∧
          e.error_code = "INVALID_VALUE_RANGE" ∧ e.field = some "horizon")
      ↔ (h ≤ 0 ∨ 1024 < h) := by
  constructor
  · rintro ⟨e, heq, hcode, hfield⟩
    by_contra hrange
    push_neg at hrange
    obtain ⟨h1, h2⟩ := hrange
    have hstage : validateHorizonField req = none := by
      rw [validateHorizonField_fin req h hhor,
          if_neg (by exact not_le.mpr h1), if_neg (by exact not_lt.mpr h2)]
    simp only [validateForecastRequest, hroot, hmodel, hstage] at heq
    cases hx : validateXField p req with
    | some ex =>
      rw [hx] at heq
      have hfx := validateXField_field p req ex hx
      rw [Option.some.inj heq, hfield] at hfx
      simp at hfx
    | none =>
      rw [hx] at heq
      cases ho : validateOutputTypeField req with
      | some eo =>
        rw [ho] at heq
        have hfo := validateOutputTypeField_field req eo ho
        rw [Option.some.inj heq, hfield] at hfo
        simp at hfo
      | none =>
        rw [ho] at heq
        cases hq : validateQuantilesField req with
        | some eq' =>
          rw [hq] at heq
          have hfq := validateQuantilesField_field req eq' hq
          rw [Option.some.inj heq, hfield] at hfq
          simp at hfq
        | none =>
          rw [hq] at heq
          simp at heq
  · intro hrange
    rcases hrange with hle | hgt
    · refine ⟨⟨"INVALID_VALUE_RANGE", "Horizon must be greater than 0",
               some "horizon", some s!"Got: {JSNum.toStr (.fin h)}"⟩, ?_, rfl, rfl⟩
      have hstage : validateHorizonField req =
          some ⟨"INVALID_VALUE_RANGE", "Horizon must be greater than 0",
                some "horizon", some s!"Got: {JSNum.toStr (.fin h)}"⟩ := by
        rw [validateHorizonField_fin req h hhor, if_pos hle]
      simp only [validateForecastRequest, hroot, hmodel, hstage]
    · refine ⟨⟨"INVALID_VALUE_RANGE", "Horizon is too large. Maximum supported is 1024",
               some "horizon", some s!"Got: {JSNum.toStr (.fin h)}"⟩, ?_, rfl, rfl⟩
      have hstage : validateHorizonField req =
          some ⟨"INVALID_VALUE_RANGE", "Horizon is too large. Maximum supported is 1024",
                some "horizon", some s!"Got: {JSNum.toStr (.fin h)}"⟩ := by
        rw [validateHorizonField_fin req h hhor,
            if_neg (by exact not_le.mpr (lt_trans (by norm_num) hgt)), if_pos hgt]
      simp only [validateForecastRequest, hroot, hmodel, hstage]

/-- Witness for C6: `{model:"chronos2", x:[1,2,3], horizon:0}` yields
`INVALID_VALUE_RANGE` on `horizon`, and `horizon = 1024` passes the range
check (no `INVALID_VALUE_RANGE`/`horizon` error). -/
theorem validateForecastRequest_horizon_range_witness :
    (∃ e, validateForecastRequest noParse
        (.obj [("model", .str "chronos2"),
               ("x", .arr [.num (.fin 1), .num (.fin 2), .num (.fin 3)]),
               ("horizon", .num (.fin 0))]) = some e ∧
        e.error_code = "INVALID_VALUE_RANGE" ∧ e.field = some "horizon") ∧
    ¬ (∃ e, validateForecastRequest noParse
        (.obj [("model", .str "chronos2"),
               ("x", .arr [.num (.fin 1), .num (.fin 2), .num (.fin 3)]),
               ("horizon", .num (.fin 1024))]) = some e ∧
        e.error_code = "INVALID_VALUE_RANGE" ∧ e.field = some "horizon") := by
  constructor
  · exact (validateForecastRequest_horizon_range noParse
      (.obj [("model", .str "chronos2"),
             ("x", .arr [.num (.fin 1), .num (.fin 2), .num (.fin 3)]),
             ("horizon", .num (.fin 0))]) 0 rfl rfl rfl).mpr (Or.inl le_rfl)
  · intro hex
    have := (validateForecastRequest_horizon_range noParse
      (.obj [("model", .str "chronos2"),
             ("x", .arr [.num (.fin 1), .num (.fin 2), .num (.fin 3)]),
             ("horizon", .num (.fin 1024))]) 1024 rfl rfl rfl).mp hex
    rcases this with hc | hc <;> norm_num at hc

/-- A quantile element the source accepts: a finite number in `[0, 1]`. -/
def QuantileOk (v : JSVal) : Prop :=
  ∃ r : ℚ, v = .num (.fin r) ∧ 0 ≤ r ∧ r ≤ 1

/-- First-violation characterization of the quantile loop, with `k` the
starting report index: if every element before position `i` is acceptable
and the element at `i` violates, the loop stops at `i` and reports index
`k + i`. -/
theorem checkQuantiles_first_violation (qs : List JSVal) (k i : ℕ)
    (hik : i < qs.length)
    (hprev : ∀ j, j < i → QuantileOk (qs.getD j .undefined)) :
    (isFiniteNumber (qs.getD i .undefined) = false →
       checkQuantiles qs k = some ⟨"INVALID_PARAMETER",
         s!"quantiles[{k + i}] must be a finite number", some "quantiles",
         some s!"Got: {jsToString (qs.getD i .undefined)}"⟩) ∧
    (∀ r : ℚ, qs.getD i .undefined = .num (.fin r) → (r < 0 ∨ r > 1) →
       checkQuantiles qs k = some ⟨"INVALID_VALUE_RANGE",
         s!"quantiles[{k + i}] must be between 0 and 1", some "quantiles",
         some s!"Got: {JSNum.toStr (.fin r)}"⟩) := by
  induction qs generalizing k i with
  | nil => simp at hik
  | cons q rest ih =>
    cases i with
    | zero =>
      constructor
      · intro hfin
        match q, hfin with
        | .undefined, _ => simp [checkQuantiles]
        | .null, _ => simp [checkQuantiles]
        | .bool b, _ => simp [checkQuantiles]
        | .num .nan, _ => simp [checkQuantiles]
        | .num .posInf, _ => simp [checkQuantiles]
        | .num .negInf, _ => simp [checkQuantiles]
        | .str s, _ => simp [checkQuantiles]
        | .arr a, _ => simp [checkQuantiles]
        | .obj o, _ => simp [checkQuantiles]
      · intro r hr hviol
        simp only [List.getD_cons_zero] at hr
        subst hr
        have : (r < 0 ∨ r > 1) = True := eq_true hviol
        simp [checkQuantiles, hviol]
    | succ i' =>
      obtain ⟨r0, hq0, hr0l, hr0u⟩ := hprev 0 (Nat.succ_pos i')
      simp only [List.getD_cons_zero] at hq0
      subst hq0
      have hnoviol : ¬(r0 < 0 ∨ r0 > 1) := by
        rintro (hc | hc)
        · exact absurd hr0l (not_le.mpr hc)
        · exact absurd hr0u (not_le.mpr hc)
      have hstep : checkQuantiles (JSVal.num (.fin r0) :: rest) k =
          checkQuantiles rest (k + 1) := by
        simp [checkQuantiles, hnoviol]
      have hik' : i' < rest.length := by
        simpa using Nat.lt_of_succ_lt_succ (by simpa using hik)
      have hprev' : ∀ j, j < i' → QuantileOk (rest.getD j .undefined) := by
        intro j hj
        have := hprev (j + 1) (Nat.succ_lt_succ hj)
        simpa using this
      have hidx : (k + 1) + i' = k + (i' + 1) := by omega
      have := ih (k + 1) i' hik' hprev'
      rw [hidx] at this
      simpa [hstep] using this

/-- Computation of the quantiles stage on an array value. -/
theorem validateQuantilesField_arr (req : JSVal) (qs : List JSVal)
    (hq : getField req "quantiles" = .arr qs) :
    validateQuantilesField req =
      if qs.length = 0 then
        some ⟨"INVALID_VALUE_RANGE", "quantiles array must not be empty",
              some "quantiles", none⟩
      else checkQuantiles qs 0 := by
  unfold validateQuantilesField
  rw [hq]

/-- **C7.** For a request that passes all earlier checks and supplies
`quantiles`: an empty array yields `INVALID_VALUE_RANGE` on `quantiles`;
otherwise elements are checked in index order and the first violation wins
— a non-finite/non-numeric element at index `i` yields `INVALID_PARAMETER`
and a finite element outside `[0, 1]` at index `i` yields
`INVALID_VALUE_RANGE`, both on field `quantiles` with the offending index
`i` in the message. -/
theorem validateForecastRequest_quantiles_first_violation
    (p : String → Except String JSVal) (req : JSVal) (qs : List JSVal)
    (hroot : validateRoot req = none)
    (hmodel : validateModelField req = none)
    (hhor : validateHorizonField req = none)
    (hx : validateXField p req = none)
    (hout : validateOutputTypeField req = none)
    (hq : getField req "quantiles" = .arr qs) :
    (qs = [] → validateForecastRequest p req =
       some ⟨"INVALID_VALUE_RANGE", "quantiles array must not be empty",
             some "quantiles", none⟩) ∧
    (∀ i, i < qs.length → (∀ j, j < i → QuantileOk (qs.getD j .undefined)) →
       (isFiniteNumber (qs.getD i .undefined) = false →
          validateForecastRequest p req = some ⟨"INVALID_PARAMETER",
            s!"quantiles[{i}] must be a finite number", some "quantiles",
            some s!"Got: {jsToString (qs.getD i .undefined)}"⟩) ∧
       (∀ r : ℚ, qs.getD i .undefined = .num (.fin r) → (r < 0 ∨ r > 1) →
          validateForecastRequest p req = some ⟨"INVALID_VALUE_RANGE",
            s!"quantiles[{i}] must be between 0 and 1", some "quantiles",
            some s!"Got: {JSNum.toStr (.fin r)}"⟩)) := by
  have hmain : validateForecastRequest p req = validateQuantilesField req := by
    simp only [validateForecastRequest, hroot, hmodel, hhor, hx, hout]
  constructor
  · intro hempty
    subst hempty
    rw [hmain, validateQuantilesField_arr req [] hq]
    simp
  · intro i hik hprev
    have hne : ¬ qs.length = 0 := by omega
    have hloop := checkQuantiles_first_violation qs 0 i hik hprev
    rw [Nat.zero_add] at hloop
    rw [hmain, validateQuantilesField_arr req qs hq, if_neg hne]
    exact hloop

/-- Witness for C7 at the spec's example `quantiles = [0.1, 1.5, 0.9]`:
the first offending index 1 is reported with `INVALID_VALUE_RANGE` on
field `quantiles`. -/
theorem validateForecastRequest_quantiles_first_violation_witness :
    validateForecastRequest noParse
      (.obj [("model", .str "chronos2"),
             ("x", .arr [.num (.fin 1), .num (.fin 2), .num (.fin 3)]),
             ("horizon", .num (.fin 5)),
             ("quantiles", .arr [.num (.fin (1/10)), .num (.fin (3/2)),
                                 .num (.fin (9/10))])]) =
      some ⟨"INVALID_VALUE_RANGE", "quantiles[1] must be between 0 and 1",
            some "quantiles", some s!"Got: {JSNum.toStr (.fin ((3 : ℚ)/2))}"⟩ :=
  ((validateForecastRequest_quantiles_first_violation noParse
      (.obj [("model", .str "chronos2"),
             ("x", .arr [.num (.fin 1), .num (.fin 2), .num (.fin 3)]),
             ("horizon", .num (.fin 5)),
             ("quantiles", .arr [.num (.fin (1/10)), .num (.fin (3/2)),
                                 .num (.fin (9/10))])])
      [.num (.fin (1/10)), .num (.fin (3/2)), .num (.fin (9/10))]
      rfl rfl rfl rfl rfl rfl).2 1 (by decide)
      (fun j hj => by
        match j, hj with
        | 0, _ => exact ⟨1/10, rfl, by norm_num, by norm_num⟩)).2
    (3/2) rfl (Or.inr (by norm_num))

/-- **C8.** `transformError` is total — it returns an `ErrorResponse` for
every input value and context — and: a plain string `s` maps to
`UNKNOWN_ERROR` with message `s`; `null` maps to `UNKNOWN_ERROR`; a generic
runtime `Error` whose message contains the connectivity keyword
`ECONNREFUSED` maps to `NETWORK_ERROR`. -/
theorem transformError_total_and_cases :
    (∀ (e : ErrValue) (ctx : Option ErrorContext),
       ∃ r : ErrorResponse, transformError e ctx = r) ∧
    (∀ s : String, transformError (.val (.str s)) none =
       { error_code := "UNKNOWN_ERROR", message := s, field := none, details := none }) ∧
    (transformError (.val .null) none).error_code = "UNKNOWN_ERROR" ∧
    (∀ (nm msg : String) (te : Bool) (ctx : Option ErrorContext),
       strIncludes (toLowerStr msg) "econnrefused" = true →
       (transformError (.err ⟨nm, msg, te⟩) ctx).error_code = "NETWORK_ERROR") := by
  refine ⟨fun e ctx => ⟨transformError e ctx, rfl⟩, ?_, rfl, ?_⟩
  · intro s
    have hsdk : isSDKError (.val (.str s)) = false := by
      have hred : isSDKError (.val (.str s)) =
          if ¬ truthy (JSVal.str s) = true ∨ typeOf (JSVal.str s) ≠ "object" then false
          else
            match getField (JSVal.str s) "error_code" with
            | JSVal.str _ => true
            | _ => false := rfl
      rw [hred, if_pos (Or.inr (by simp [typeOf]))]
    simp [transformError, hsdk]
  · intro nm msg te ctx h
    have hmsgne : msg ≠ "" := by
      intro hm
      subst hm
      exact absurd h (by decide)
    have hlow : toLowerStr "ECONNREFUSED" = "econnrefused" := by decide
    have hnet : isNetworkError msg = true := by
      unfold isNetworkError
      simp only [List.any_cons, hlow, h, Bool.true_or]
    have hsdk : isSDKError (.err ⟨nm, msg, te⟩) = false := rfl
    simp [transformError, transformJavaScriptError, hsdk, hmsgne, hnet]

/-- Witness for C8 at the spec's examples: `ECONNREFUSED` fault, plain
string, and `null`. -/
theorem transformError_total_and_cases_witness :
    (transformError (.err ⟨"Error", "connect ECONNREFUSED 127.0.0.1", false⟩) none).error_code =
      "NETWORK_ERROR" ∧
    transformError (.val (.str "plain string")) none =
      { error_code := "UNKNOWN_ERROR", message := "plain string",
        field := none, details := none } :=
  ⟨transformError_total_and_cases.2.2.2 "Error" "connect ECONNREFUSED 127.0.0.1"
     false none (by decide),
   transformError_total_and_cases.2.1 "plain string"⟩

theorem retryable_auth_codes_disjoint (s : String)
    (hs : s ∈ retryableCodes) : s ∉ authCodes := by
  fin_cases hs <;> decide

/-- **C9.** `isRetryableError` and `isAuthError` are never both true — the
fixed retryable-code and auth-code tables are disjoint — and both return
false for any value that is not a structured SDK error carrying a string
`error_code`. -/
theorem isRetryable_isAuth_disjoint (e : ErrValue) :
    (isRetryableError e && isAuthError e) = false ∧
    (isSDKError e = false →
       isRetryableError e = false ∧ isAuthError e = false) := by
  constructor
  · cases hsdk : isSDKError e with
    | false => simp [isRetryableError, isAuthError, hsdk]
    | true =>
      simp [isRetryableError, isAuthError, hsdk]
      exact retryable_auth_codes_disjoint (errorCodeOf e)
  · intro hsdk
    simp [isRetryableError, isAuthError, hsdk]

/-- Witness for C9 at `null` (not an SDK error). -/
theorem isRetryable_isAuth_disjoint_witness :
    isRetryableError (.val .null) = false ∧ isAuthError (.val .null) = false :=
  (isRetryable_isAuth_disjoint (.val .null)).2 rfl

/-- **C10 counterexample.** The claim says an empty array at some nesting
level makes the profile end at that level with a `0` entry; in fact the
`while` loop requires `current.length > 0` before pushing anything, so the
empty level contributes no entry: `getArrayShape([])` is `[]` (not `[0]`)
and `getArrayShape([[],[]])` is `[2]` (not `[2, 0]`). -/
theorem getArrayShape_empty_counterexample :
    getArrayShape ([] : List JSVal) = [] ∧
    getArrayShape [JSVal.arr [], JSVal.arr []] = [2] ∧
    (getArrayShape [JSVal.arr [], JSVal.arr []]).getLast? ≠ some 0 :=
  ⟨rfl, rfl, by decide⟩

/-- **C10 (amended).** `getArrayShape` is a total function (it never raises
on any modelled input); when it encounters an empty array at some nesting
level the profile ends just above that level — the empty level contributes
no entry: the profile of `[]` is `[]`, the profile of `[[],[]]` is `[2]`,
and in general a non-empty level contributes its length and recursion
continues into its first element. -/
theorem getArrayShape_total_empty_stops :
    getArrayShape ([] : List JSVal) = [] ∧
    (∀ rest : List JSVal, getArrayShape (.arr [] :: rest) = [rest.length + 1]) ∧
    (∀ (x : JSVal) (rest : List JSVal),
       getArrayShape (x :: rest) = (rest.length + 1) :: shapeOf x) := by
  refine ⟨rfl, ?_, ?_⟩
  · intro rest
    simp [getArrayShape, shapeOf]
  · intro x rest
    simp [getArrayShape, shapeOf]

end Faim
